import Mathlib

/-!
Verification of the Note-Embellisher backend pipeline (src/backend) against its
natural-language specification.

Modelling conventions:
* Python strings are modelled as lists of characters (a Python str is a
  sequence of unicode code points, matching Char as unicode scalar values).
* Python ints appearing here (lengths, counts, progress) are modelled as Nat;
  every value reaching the modelled code paths is non-negative.
* Fallible Python code is modelled with Except/Option; an uncaught Python
  exception is an .error value.
* External collaborators (the OpenAI client, json.loads, uuid4, the clock and
  the filesystem) are passed in as explicit parameters, so the embedded
  functions stay pure while following the source line by line.
-/

set_option autoImplicit false

/-- Shorthand: the characters of a string literal. -/
def toL (s : String) : List Char := s.toList

/-! ### Python string primitives -/

/-- Python str.strip default whitespace, modelled for the ASCII whitespace
characters (space, tab, newline, carriage return, vertical tab, form feed);
these are the only whitespace characters the embedded texts involve. -/
def pySpace (c : Char) : Bool :=
  c == ' ' || c == '\t' || c == '\n' || c == '\r' || c == '\x0b' || c == '\x0c'

/-- Python str.lstrip() on a list of characters. -/
def pyLStrip (l : List Char) : List Char := l.dropWhile pySpace

/-- Python str.rstrip() on a list of characters. -/
def pyRStrip (l : List Char) : List Char := (l.reverse.dropWhile pySpace).reverse

/-- Python str.strip() on a list of characters. -/
def pyStrip (l : List Char) : List Char := pyRStrip (pyLStrip l)

/-- Helper for splitting: push a character onto the first piece. -/
def consHead (c : Char) : List (List Char) → List (List Char)
  | [] => [[c]]
  | h :: t => (c :: h) :: t

/-- Python text.split with the two-character separator of a blank line
(double newline), leftmost non-overlapping occurrences, keeping empty pieces:
this is the paragraph split used by _split_text_into_chunks
(chatgpt_service.py:266). -/
def splitParas : List Char → List (List Char)
  | [] => [[]]
  | [c] => [[c]]
  | c1 :: c2 :: rest =>
    if c1 = '\n' ∧ c2 = '\n' then [] :: splitParas rest
    else consHead c1 (splitParas (c2 :: rest))

/-- Join a list of pieces with the double-newline separator (the inverse
direction of splitParas). -/
def interParas : List (List Char) → List Char
  | [] => []
  | [x] => x
  | x :: y :: rest => x ++ '\n' :: '\n' :: interParas (y :: rest)

/-- Python text.split with the one-character separator of a line break,
keeping empty pieces. -/
def splitLines : List Char → List (List Char)
  | [] => [[]]
  | c :: rest => if c = '\n' then [] :: splitLines rest else consHead c (splitLines rest)

/-- Join pieces with a single line break (Python newline.join). -/
def interLines : List (List Char) → List Char
  | [] => []
  | [x] => x
  | x :: y :: rest => x ++ '\n' :: interLines (y :: rest)

/-- Accumulator for pyWords. -/
def pyWordsAux : List Char → List Char → List (List Char)
  | [], cur => if cur = [] then [] else [cur.reverse]
  | c :: rest, cur =>
    if pySpace c then
      if cur = [] then pyWordsAux rest [] else cur.reverse :: pyWordsAux rest []
    else pyWordsAux rest (c :: cur)

/-- Python str.split() with no argument: split on whitespace runs, discarding
empty pieces. -/
def pyWords (l : List Char) : List (List Char) := pyWordsAux l []

/-- Join words with single spaces (Python space.join). -/
def joinWords : List (List Char) → List Char
  | [] => []
  | [x] => x
  | x :: y :: rest => x ++ ' ' :: joinWords (y :: rest)

/-- Python line.startswith(c) for a single-character argument. -/
def startsWithChar (c : Char) : List Char → Bool
  | [] => false
  | x :: _ => x = c

/-! ### Chunked enhancement engine: _split_text_into_chunks
(chatgpt_service.py:260-285) -/

/-- Default value of self.chunk_char_limit (chatgpt_service.py:55, environment
variable OPENAI_CHUNK_CHAR_LIMIT unset). -/
def chunk_char_limit : Nat := 3800

/-- Python limit = max_chars or self.chunk_char_limit (chatgpt_service.py:262):
None and 0 are falsy and fall back to the default. -/
def effectiveChunkLimit : Option Nat → Nat
  | none => chunk_char_limit
  | some n => if n = 0 then chunk_char_limit else n

/-- Python para_with_break = para + a double newline (chatgpt_service.py:272). -/
def withBreak (p : List Char) : List Char := p ++ ['\n', '\n']

/-- The for-loop of _split_text_into_chunks (chatgpt_service.py:271-283),
transcribed directly: cur is the list current_chunk of paragraph strings with
their break appended, curLen is current_length, and a finished chunk is the
stripped join of current_chunk.  The final flush of a non-empty current_chunk
is the base case. -/
def chunkLoop (limit : Nat) : List (List Char) → List (List Char) → Nat → List (List Char)
  | [], cur, _ => if cur = [] then [] else [pyStrip cur.join]
  | para :: rest, cur, curLen =>
    let pw := withBreak para
    if limit < curLen + pw.length ∧ cur ≠ [] then
      pyStrip cur.join :: chunkLoop limit rest [pw] pw.length
    else
      chunkLoop limit rest (cur ++ [pw]) (curLen + pw.length)

/-- ChatGPTService._split_text_into_chunks (chatgpt_service.py:260-285): text
within the limit is a single chunk; longer text is split on paragraph
boundaries by the greedy loop, and empty chunks are dropped at the end. -/
def split_text_into_chunks (text : List Char) (maxChars : Option Nat) : List (List Char) :=
  let limit := effectiveChunkLimit maxChars
  if text.length ≤ limit then [text]
  else (chunkLoop limit (splitParas text) [] 0).filter (fun c => ¬ c = [])

/-- The same loop with the per-chunk strip omitted: the chunks before the
engine's own whitespace trimming (for the lossless-concatenation claim). -/
def chunkLoopRaw (limit : Nat) : List (List Char) → List (List Char) → Nat → List (List Char)
  | [], cur, _ => if cur = [] then [] else [cur.join]
  | para :: rest, cur, curLen =>
    let pw := withBreak para
    if limit < curLen + pw.length ∧ cur ≠ [] then
      cur.join :: chunkLoopRaw limit rest [pw] pw.length
    else
      chunkLoopRaw limit rest (cur ++ [pw]) (curLen + pw.length)

/-- _split_text_into_chunks with the per-chunk trimming (and the final filter,
which only drops chunks the trimming emptied) omitted. -/
def split_text_into_chunks_untrimmed (text : List Char) (maxChars : Option Nat) : List (List Char) :=
  let limit := effectiveChunkLimit maxChars
  if text.length ≤ limit then [text]
  else chunkLoopRaw limit (splitParas text) [] 0

/-- Length of a paragraph once its double-newline break is appended. -/
def pwbLen (p : List Char) : Nat := p.length + 2

/-- Total length of a chunk, counted as the sum of its paragraphs with their
breaks (this is what current_length accumulates). -/
def sumPwbLen (c : List (List Char)) : Nat := (c.map pwbLen).sum

/-- Structured view of the same loop: chunks as lists of the original
paragraphs (without the appended breaks), to state where the chunk boundaries
fall. -/
def chunkParas (limit : Nat) : List (List Char) → List (List Char) → Nat → List (List (List Char))
  | [], cur, _ => if cur = [] then [] else [cur]
  | para :: rest, cur, curLen =>
    if limit < curLen + pwbLen para ∧ cur ≠ [] then
      cur :: chunkParas limit rest [para] (pwbLen para)
    else
      chunkParas limit rest (cur ++ [para]) (curLen + pwbLen para)

/-- The chunk string a structured chunk denotes, before trimming. -/
def parasToChunk (c : List (List Char)) : List Char := (c.map withBreak).join

/-! ### ProcessingSettings (chatgpt_service.py:14-49) and settings
normalization (main.py:306-323) -/

/-- The ProcessingSettings object of chatgpt_service.py:14-49, with the field
values as stored after __init__ ran (so focus_topics and flashcard_topics are
already lists, custom_specifications is already stripped, and
max_flashcards_per_topic is already clamped to at least 1). -/
structure ProcessingSettings where
  add_bullet_points : Bool
  add_headers : Bool
  expand : Bool
  summarize : Bool
  focus_topics : List (List Char)
  latex_style : List Char
  font_preference : List Char
  custom_specifications : List Char
  generate_flashcards : Bool
  flashcard_topics : List (List Char)
  flashcard_count : Nat
  max_flashcards_per_topic : Nat
  project_name : Option (List Char)
  latex_title : Option (List Char)
  include_nickname : Bool
  nickname : Option (List Char)
deriving DecidableEq

/-- A keyword dictionary for ProcessingSettings(**data): each key either
present with a value or absent.  Absent optional-string keys and
None-valued keys are both modelled as none, which is what the falsy checks
of __init__ see in either case. -/
structure SettingsDict where
  add_bullet_points : Option Bool
  add_headers : Option Bool
  expand : Option Bool
  summarize : Option Bool
  focus_topics : Option (List (List Char))
  latex_style : Option (List Char)
  font_preference : Option (List Char)
  custom_specifications : Option (List Char)
  generate_flashcards : Option Bool
  flashcard_topics : Option (List (List Char))
  flashcard_count : Option Nat
  max_flashcards_per_topic : Option Nat
  project_name : Option (List Char)
  latex_title : Option (List Char)
  include_nickname : Option Bool
  nickname : Option (List Char)
deriving DecidableEq

/-- The empty keyword dictionary (Python empty dict). -/
def emptySettingsDict : SettingsDict :=
  ⟨none, none, none, none, none, none, none, none, none, none, none, none,
    none, none, none, none⟩

/-- ProcessingSettings(**data): the __init__ of chatgpt_service.py:14-49
applied to a keyword dictionary, filling in the declared defaults for absent
keys and applying the init-time transformations: focus_topics or a fresh empty
list, stripped custom_specifications, flashcard_topics or a fresh empty list,
and max_flashcards_per_topic = max(1, value or 4). -/
def settingsFromDict (d : SettingsDict) : ProcessingSettings where
  add_bullet_points := d.add_bullet_points.getD false
  add_headers := d.add_headers.getD false
  expand := d.expand.getD false
  summarize := d.summarize.getD false
  focus_topics := d.focus_topics.getD []
  latex_style := d.latex_style.getD (toL "academic")
  font_preference := d.font_preference.getD (toL "Times New Roman")
  custom_specifications := pyStrip (d.custom_specifications.getD [])
  generate_flashcards := d.generate_flashcards.getD false
  flashcard_topics := d.flashcard_topics.getD []
  flashcard_count := d.flashcard_count.getD 0
  max_flashcards_per_topic :=
    max 1 (match d.max_flashcards_per_topic with
           | none => 4
           | some n => if n = 0 then 4 else n)
  project_name := d.project_name
  latex_title := d.latex_title
  include_nickname := d.include_nickname.getD false
  nickname := d.nickname

/-- The ProcessingSettings produced by calling the constructor with no
arguments: every field at its declared default. -/
def defaultProcessingSettings : ProcessingSettings where
  add_bullet_points := false
  add_headers := false
  expand := false
  summarize := false
  focus_topics := []
  latex_style := toL "academic"
  font_preference := toL "Times New Roman"
  custom_specifications := []
  generate_flashcards := false
  flashcard_topics := []
  flashcard_count := 0
  max_flashcards_per_topic := 4
  project_name := none
  latex_title := none
  include_nickname := false
  nickname := none

/-- The shapes a settings payload can arrive in at
ensure_processing_settings (main.py:306): an already-built ProcessingSettings,
a pydantic ProcessingSettingsSchema (whose model_dump yields a full keyword
dictionary), a JSON string, a plain dict, None, or any other object (whose
attribute dictionary is taken). -/
inductive SettingsPayload where
  | ps (s : ProcessingSettings)
  | schema (d : SettingsDict)
  | str (s : List Char)
  | dict (d : SettingsDict)
  | pyNone
  | other (d : SettingsDict)
deriving DecidableEq

/-- ensure_processing_settings (main.py:306-323).  json.loads is an external
collaborator passed in as a function: jsonLoads s = none models a string that
raises json.JSONDecodeError, in which case the code silently substitutes an
empty dict. -/
def ensure_processing_settings (jsonLoads : List Char → Option SettingsDict) :
    SettingsPayload → ProcessingSettings
  | .ps s => s
  | .schema d => settingsFromDict d
  | .str s =>
    match jsonLoads s with
    | some d => settingsFromDict d
    | none => settingsFromDict emptySettingsDict
  | .dict d => settingsFromDict d
  | .pyNone => settingsFromDict emptySettingsDict
  | .other d => settingsFromDict d

/-! ### Fallback enhancement: _create_fallback_enhanced_text
(chatgpt_service.py:750-780) -/

/-- The deterministic header banner prepended when add_headers is set
(chatgpt_service.py:758): title line, blank line, a 39-character divider,
blank line. -/
def headerBanner : List Char :=
  toL "# 📝 Enhanced Notes\n\n═══════════════════════════════════════\n\n"

/-- The 39-character divider line used by the fallback transform. -/
def fallbackDivider : List Char :=
  toL "═══════════════════════════════════════"

/-- One line of the bullet transform (chatgpt_service.py:764-768): a line with
non-blank strip that starts with neither a hash nor a divider character is
replaced by a bullet, a space and its stripped text; other lines pass
through. -/
def bulletLine (line : List Char) : List Char :=
  if pyStrip line ≠ [] ∧ startsWithChar '#' line = false ∧ startsWithChar '═' line = false
  then '•' :: ' ' :: pyStrip line
  else line

/-- The fixed note appended when expand is set (chatgpt_service.py:773). -/
def expandNote : List Char :=
  toL "\n\n**Additional Context:** This content has been locally enhanced with basic formatting. Full AI enhancement is temporarily unavailable due to API configuration issues.\n\n**Next Steps:** Please check your OpenAI API configuration for full functionality."

/-- The summary excerpt prepended when summarize is set
(chatgpt_service.py:777). -/
def summaryOf (text : List Char) : List Char :=
  if 100 < text.length then toL "**Summary:** " ++ text.take 100 ++ toL "..."
  else toL "**Summary:** " ++ text

/-- ChatGPTService._create_fallback_enhanced_text (chatgpt_service.py:750-780):
the deterministic local transform used when the OpenAI client is unavailable
or every attempt failed. -/
def create_fallback_enhanced_text (text : List Char) (s : ProcessingSettings) : List Char :=
  let e1 := if s.add_headers then headerBanner ++ text else text
  let e2 := if s.add_bullet_points then interLines ((splitLines e1).map bulletLine) else e1
  let e3 := if s.expand then e2 ++ expandNote else e2
  if s.summarize then summaryOf text ++ '\n' :: '\n' :: fallbackDivider ++ '\n' :: '\n' :: e3
  else e3

/-- The settings of the C8 scenario: add_headers and add_bullet_points set,
everything else at its default. -/
def c8FallbackSettings : ProcessingSettings :=
  { defaultProcessingSettings with add_headers := true, add_bullet_points := true }

/-! ### Job records, statuses, cancel and creation
(core/schemas.py:6-10, core/database.py:20-76, main.py:336-341, 736-753,
860-877, 1067-1083) -/

/-- The ProcessingStatus enum imported by main.py from core/schemas.py:6-10.
The enum declares exactly these four members; there is no CANCELLED member. -/
inductive ProcessingStatus where
  | pending
  | processing
  | completed
  | error
deriving DecidableEq

/-- Attribute lookup on the ProcessingStatus enum class: the declared members
resolve to their value, any other attribute name - in particular CANCELLED -
raises AttributeError, modelled as none. -/
def processingStatusAttr : String → Option ProcessingStatus
  | "PENDING" => some .pending
  | "PROCESSING" => some .processing
  | "COMPLETED" => some .completed
  | "ERROR" => some .error
  | _ => none

/-- One flashcard entry as stored in the flashcards JSON column
(a dict with id, topic, term, definition, source and created_at). -/
structure Flashcard where
  id : List Char
  topic : List Char
  term : List Char
  definition : List Char
  source : List Char
  created_at : Option (List Char)
deriving DecidableEq

/-- The Note row (core/database.py:20-76).  The serialized settings_json
column is modelled as the settings value itself; no claim inspects its JSON
text.  The status column is a string, but the only values the code ever
stores are the four enum members (the write of a cancelled status is
unreachable, see cancel_note_processing below), so it is modelled by the
enum. -/
structure Note where
  id : Nat
  user_id : List Char
  text : Option (List Char)
  settings_json : ProcessingSettings
  processed_content : Option (List Char)
  status : ProcessingStatus
  progress : Nat
  progress_message : Option (List Char)
  input_type : List Char
  image_url : Option (List Char)
  image_path : Option (List Char)
  image_filename : Option (List Char)
  image_type : Option (List Char)
  pdf_path : Option (List Char)
  tex_path : Option (List Char)
  docx_path : Option (List Char)
  txt_path : Option (List Char)
  project_name : Option (List Char)
  latex_title : Option (List Char)
  include_nickname : Bool
  nickname : Option (List Char)
  flashcards : List Flashcard
deriving DecidableEq

/-- Python exceptions surfaced by the modelled endpoints. -/
inductive PyError where
  | attributeError
  | typeError
  | httpException (statusCode : Nat) (detail : List Char)
deriving DecidableEq

/-- Python a or b on optional strings: None and the empty string are falsy. -/
def pyOrOptStr (a b : Option (List Char)) : Option (List Char) :=
  match a with
  | some p => if p = [] then b else some p
  | none => b

/-- cancel_note_processing (main.py:860-877), for a note that exists and
belongs to the caller.  Line 867 first builds the set containing
ProcessingStatus.COMPLETED and ProcessingStatus.CANCELLED, so the CANCELLED
attribute of the enum is evaluated before any branch is taken; lines 868-877
follow the source. -/
def cancel_note_processing (note : Note) : Except PyError Note :=
  match processingStatusAttr "CANCELLED" with
  | none => .error .attributeError
  | some cancelled =>
    if note.status = .completed ∨ note.status = cancelled then
      .error (.httpException 400 (toL "Note processing is already finished"))
    else if note.status = .error then
      .error (.httpException 400 (toL "Note failed previously and cannot be cancelled"))
    else
      .ok { note with
            status := cancelled
            progress := 0
            progress_message := some (toL "Processing cancelled by user") }

/-- apply_note_metadata_from_settings (main.py:336-341). -/
def apply_note_metadata_from_settings (note : Note) (s : ProcessingSettings) : Note :=
  { note with
    project_name := pyOrOptStr s.project_name note.project_name
    latex_title := pyOrOptStr s.latex_title note.latex_title
    include_nickname := s.include_nickname
    nickname := pyOrOptStr s.nickname note.nickname }

/-- The Note row created by create_note (main.py:736-747): the constructor is
called with user_id, text, the serialized settings, status PROCESSING,
progress 0 and the queued message; every other column keeps its database
default; then apply_note_metadata_from_settings runs.  The database assigns
the primary key, passed in as newId. -/
def create_note_record (newId : Nat) (uid text : List Char)
    (ps : ProcessingSettings) : Note :=
  apply_note_metadata_from_settings
    { id := newId
      user_id := uid
      text := some text
      settings_json := ps
      processed_content := none
      status := .processing
      progress := 0
      progress_message := some (toL "Queued for processing")
      input_type := toL "text"
      image_url := none
      image_path := none
      image_filename := none
      image_type := none
      pdf_path := none
      tex_path := none
      docx_path := none
      txt_path := none
      project_name := none
      latex_title := none
      include_nickname := false
      nickname := none
      flashcards := [] } ps

/-- The Note row created by upload_image_note (main.py:1067-1083): text is
None until transcription, status PROCESSING, progress 0, the uploading
message, and the image columns from the upload. -/
def upload_image_note_record (newId : Nat) (uid url path fname itype : List Char)
    (ps : ProcessingSettings) : Note :=
  apply_note_metadata_from_settings
    { id := newId
      user_id := uid
      text := none
      settings_json := ps
      processed_content := none
      status := .processing
      progress := 0
      progress_message := some (toL "Uploading media...")
      input_type := toL "image"
      image_url := some url
      image_path := some path
      image_filename := some fname
      image_type := some itype
      pdf_path := none
      tex_path := none
      docx_path := none
      txt_path := none
      project_name := none
      latex_title := none
      include_nickname := false
      nickname := none
      flashcards := [] } ps

/-! ### Flashcard generation (chatgpt_service.py:484-602) and the pipeline
merge (main.py:356-418) -/

/-- One entry of the JSON list the model returns (and equally one validated
card): topic, term and definition, after Python str() conversion of the dict
values; a missing key yields the empty string. -/
structure FlashEntry where
  topic : List Char
  term : List Char
  definition : List Char
deriving DecidableEq

/-- Python trimmed.rstrip of the comma, semicolon and colon characters
(chatgpt_service.py:599). -/
def rstripPunct (l : List Char) : List Char :=
  (l.reverse.dropWhile (fun c => c == ',' || c == ';' || c == ':')).reverse

/-- ChatGPTService._limit_definition (chatgpt_service.py:593-602): at most 50
words, trimmed of dangling punctuation and terminated with a period when no
sentence-ending punctuation remains. -/
def limit_definition (definition : List Char) : List Char :=
  let words := pyWords definition
  if words = [] then []
  else if words.length ≤ 50 then joinWords words
  else
    let trimmed := rstripPunct (joinWords (words.take 50))
    if trimmed.getLast? = some '.' ∨ trimmed.getLast? = some '?' ∨ trimmed.getLast? = some '!'
    then trimmed
    else trimmed ++ ['.']

/-- Per-topic tally (the defaultdict topic_counts of
chatgpt_service.py:564). -/
def countTopic (counts : List (List Char × Nat)) (topic : List Char) : Nat :=
  (counts.lookup topic).getD 0

/-- Increment the tally of one topic. -/
def bumpTopic (counts : List (List Char × Nat)) (topic : List Char) :
    List (List Char × Nat) :=
  (topic, countTopic counts topic + 1) :: counts

/-- The validation loop of _parse_flashcard_response
(chatgpt_service.py:566-589): n is the number of cards accepted so far
(len(cards)); an entry with a blank topic, term or definition is skipped, a
topic at its per-topic limit is skipped, and after an accepted card brings the
total to total_cards the loop breaks. -/
def parseFlashcardLoop (total_cards per_topic_limit : Nat) :
    List FlashEntry → List (List Char × Nat) → Nat → List FlashEntry
  | [], _, _ => []
  | e :: rest, counts, n =>
    let topic := pyStrip e.topic
    let term := pyStrip e.term
    let defn := pyStrip e.definition
    if topic = [] ∨ term = [] ∨ defn = [] then
      parseFlashcardLoop total_cards per_topic_limit rest counts n
    else if per_topic_limit ≤ countTopic counts topic then
      parseFlashcardLoop total_cards per_topic_limit rest counts n
    else
      let ld := limit_definition defn
      if ld = [] then parseFlashcardLoop total_cards per_topic_limit rest counts n
      else
        ⟨topic, term, ld⟩ ::
          (if total_cards ≤ n + 1 then []
           else parseFlashcardLoop total_cards per_topic_limit rest
                  (bumpTopic counts topic) (n + 1))

/-- ChatGPTService._parse_flashcard_response (chatgpt_service.py:545-591).
The raw model text is passed through json.loads after markdown fences are
dropped; that external parse is modelled by the parsed argument, where none
stands for text that fails to parse or does not parse to a list (both yield no
cards). -/
def parse_flashcard_response (parsed : Option (List FlashEntry))
    (total_cards per_topic_limit : Nat) : List FlashEntry :=
  match parsed with
  | none => []
  | some entries => parseFlashcardLoop total_cards per_topic_limit entries [] 0

/-- ChatGPTService.generate_flashcards (chatgpt_service.py:484-543).  The
OpenAI call is the external collaborator: clientAvailable models self.client,
and response models the parsed JSON of the completion text (the except branch
that returns the empty list on an API error is subsumed by response = none). -/
def generate_flashcards (text : List Char) (topics : List (List Char))
    (total_cards max_per_topic : Nat) (clientAvailable : Bool)
    (response : Option (List FlashEntry)) : List FlashEntry :=
  let cleaned_text := pyStrip text
  if cleaned_text = [] then []
  else if clientAvailable = false then []
  else
    let prepared_topics := (topics.filter (fun t => ¬ t = [] ∧ ¬ pyStrip t = [])).map pyStrip
    if prepared_topics = [] then []
    else
      let max_cards := min 50 (max total_cards prepared_topics.length)
      let per_topic_limit := max 1 max_per_topic
      parse_flashcard_response response max_cards per_topic_limit

/-- The parameter names of ChatGPTService.generate_flashcards
(chatgpt_service.py:484-490), after self. -/
def generateFlashcardsParams : List String :=
  ["text", "topics", "total_cards", "max_per_topic"]

/-- The keyword names used at the call site in
maybe_generate_flashcards_for_note (main.py:385-390). -/
def flashcardCallKeywords : List String :=
  ["text", "topics", "total_cards", "min_per_topic"]

/-- Python keyword binding for that call: it succeeds only if every supplied
keyword names a parameter of the callee; an unexpected keyword argument makes
the call itself raise TypeError. -/
def flashcardCallBinds : Bool :=
  flashcardCallKeywords.all (fun k => generateFlashcardsParams.contains k)

/-- The dict built for one new AI card (main.py:403-414): a fresh uuid, the
card fields, source ai and the shared creation timestamp. -/
def mkAiFlashcard (timestamp : List Char) (c : FlashEntry) (u : List Char) : Flashcard :=
  { id := u
    topic := c.topic
    term := c.term
    definition := c.definition
    source := toL "ai"
    created_at := some timestamp }

/-- The merge of main.py:398-416, reached with a non-empty generated batch:
keep the cards whose source is manual, validate the new batch (term and
definition non-empty) and append the new AI cards after the manual ones.  The
uuid4 draws are the external uuids supply, consumed in order. -/
def mergeFlashcards (existing : List Flashcard) (cards : List FlashEntry)
    (timestamp : List Char) (uuids : List (List Char)) : List Flashcard :=
  let existing_manual := existing.filter (fun c => c.source = toL "manual")
  let ai_cards := List.zipWith (mkAiFlashcard timestamp)
    (cards.filter (fun c => ¬ c.term = [] ∧ ¬ c.definition = [])) uuids
  existing_manual ++ ai_cards

/-- maybe_generate_flashcards_for_note (main.py:356-418).  The external pieces
are parameters: clientAvailable is CHATGPT_AVAILABLE with a non-None service,
response is the parsed completion, timestamp the clock reading and uuids the
uuid4 supply.  The generate_flashcards call at main.py:385-390 passes the
keyword min_per_topic, which generate_flashcards does not declare, so the call
binds only if flashcardCallBinds holds; a TypeError is caught by the except at
main.py:391-393, which returns without touching the note. -/
def maybe_generate_flashcards_for_note (note : Note) (text : Option (List Char))
    (settings : ProcessingSettings) (clientAvailable : Bool)
    (response : Option (List FlashEntry)) (timestamp : List Char)
    (uuids : List (List Char)) : Note :=
  match text with
  | none => note
  | some t =>
    if pyStrip t = [] then note
    else if settings.generate_flashcards = false then note
    else if clientAvailable = false then note
    else
      let topics0 :=
        if settings.flashcard_topics = [] then settings.focus_topics
        else settings.flashcard_topics
      let topics := (topics0.filter (fun tp => ¬ tp = [] ∧ ¬ pyStrip tp = [])).map pyStrip
      if topics = [] then note
      else
        let desired_count :=
          if settings.flashcard_count = 0 then topics.length else settings.flashcard_count
        let per_topic_min :=
          max 1 (if settings.max_flashcards_per_topic = 0 then 1
                 else settings.max_flashcards_per_topic)
        let total_cards := min (max (topics.length * per_topic_min) desired_count) 50
        let callResult : Except PyError (List FlashEntry) :=
          if flashcardCallBinds then
            .ok (generate_flashcards t topics total_cards per_topic_min
                  clientAvailable response)
          else .error .typeError
        match callResult with
        | .error _ => note
        | .ok cards =>
          if cards = [] then note
          else { note with flashcards := mergeFlashcards note.flashcards cards timestamp uuids }

/-! ### Artifact export manager: ensure_note_exports (main.py:168-286,
document_export_service.py:30-46) -/

/-- BACKEND_DIR (main.py:138): the directory of main.py, an absolute path at
runtime; its concrete value is immaterial to the claims. -/
def backendDir : List Char := toL "/app/backend"

/-- GENERATED_FILES_ROUTE (main.py:139). -/
def generatedFilesRoute : List Char := toL "/generated_pdfs"

/-- os.path.isabs on a posix path. -/
def isAbsPath (p : List Char) : Bool := startsWithChar '/' p

/-- absolute_export_path (main.py:168-173).  For the dot-free relative paths
this code produces, os.path.abspath(os.path.join(BACKEND_DIR, path)) is
BACKEND_DIR, a slash and the path; the process runs with the backend directory
as its working directory, so the same resolution applies to the files the
generators write. -/
def absolute_export_path (path : Option (List Char)) : Option (List Char) :=
  match path with
  | none => none
  | some p =>
    if p = [] then none
    else if isAbsPath p then some p
    else some (backendDir ++ '/' :: p)

/-- export_file_exists (main.py:176-178): the filesystem is the list fs of
paths of existing files. -/
def export_file_exists (fs : List (List Char)) (path : Option (List Char)) : Bool :=
  match absolute_export_path path with
  | none => false
  | some a => fs.contains a

/-- os.path.basename: the part after the last slash. -/
def baseName (p : List Char) : List Char :=
  (p.reverse.takeWhile (fun c => ¬ c = '/')).reverse

/-- build_generated_file_url (main.py:181-187). -/
def build_generated_file_url (path : Option (List Char)) : Option (List Char) :=
  match path with
  | none => none
  | some p =>
    if p = [] then none
    else
      let filename := baseName p
      if filename = [] then none
      else some (generatedFilesRoute ++ '/' :: filename)

/-- Decimal digits of a note id. -/
def natToChars (n : Nat) : List Char := Nat.toDigits 10 n

/-- _note_export_slug (main.py:190-192). -/
def note_export_slug (note : Note) : List Char :=
  let userFragment :=
    ((if note.user_id = [] then toL "user" else note.user_id).take 8).filter
      (fun c => ¬ c = '-')
  toL "note_" ++ natToChars note.id ++ '_' :: userFragment

/-- The path DocumentExportService.generate_txt writes and returns
(document_export_service.py:42-46): output_dir generated_pdfs, slug, the txt
suffix. -/
def generate_txt_path (slug : List Char) : List Char :=
  toL "generated_pdfs/" ++ slug ++ toL ".txt"

/-- The path DocumentExportService.generate_docx writes and returns
(document_export_service.py:30-40). -/
def generate_docx_path (slug : List Char) : List Char :=
  toL "generated_pdfs/" ++ slug ++ toL ".docx"

/-- The external collaborators of the export manager: service availability
flags (main.py:74-107) and the two-phase PDF generation, whose outcome for a
note is either the compiler's pdf and tex paths or none when any step of
_generate_pdf_assets raises. -/
structure ExportEnv where
  exportServiceAvailable : Bool
  docxAvailable : Bool
  pdfServicesAvailable : Bool
  pdfOutcome : Note → Option ((List Char) × Option (List Char))

/-- The outcome of one export step: the entries it adds to the returned
exports dict, the updated note, the updated filesystem and the formats it
generated. -/
structure StepResult where
  exports : List ((List Char) × Option (List Char))
  note : Note
  fs : List (List Char)
  generated : List (List Char)
deriving DecidableEq

/-- The pdf block of ensure_note_exports (main.py:253-259 with
_generate_pdf_assets, main.py:195-230): when the pdf is wanted and force is
set or no file exists at the recorded path, run the two-phase generation; on
success record the absolute paths on the note, write the pdf, and add the
three pdf entries to the exports dict; any exception is caught and skipped. -/
def pdfStep (env : ExportEnv) (force wants_pdf : Bool) (fs : List (List Char))
    (note : Note) : StepResult :=
  let need_pdf := wants_pdf && (force || ! export_file_exists fs note.pdf_path)
  if need_pdf then
    if env.pdfServicesAvailable then
      match env.pdfOutcome note with
      | some (pdfp, texp) =>
        let pdfAbs := absolute_export_path (some pdfp)
        let texAbs := absolute_export_path texp
        ⟨[(toL "pdf_path", pdfAbs), (toL "tex_path", texAbs),
          (toL "pdf_url", build_generated_file_url pdfAbs)],
         { note with pdf_path := pdfAbs, tex_path := texAbs },
         (match pdfAbs with | some a => a :: fs | none => fs),
         [toL "pdf"]⟩
      | none => ⟨[], note, fs, []⟩
    else ⟨[], note, fs, []⟩
  else ⟨[], note, fs, []⟩

/-- The docx block of ensure_note_exports (main.py:262-274). -/
def docxStep (env : ExportEnv) (force wants_docx : Bool) (slug : List Char)
    (fs : List (List Char)) (note : Note) : StepResult :=
  let need_docx := wants_docx && (force || ! export_file_exists fs note.docx_path)
  if need_docx && env.docxAvailable then
    let pAbs := absolute_export_path (some (generate_docx_path slug))
    ⟨[(toL "docx_url", build_generated_file_url pAbs)],
     { note with docx_path := pAbs },
     (match pAbs with | some a => a :: fs | none => fs),
     [toL "docx"]⟩
  else ⟨[], note, fs, []⟩

/-- The txt block of ensure_note_exports (main.py:276-284). -/
def txtStep (force wants_txt : Bool) (slug : List Char) (fs : List (List Char))
    (note : Note) : StepResult :=
  let need_txt := wants_txt && (force || ! export_file_exists fs note.txt_path)
  if need_txt then
    let pAbs := absolute_export_path (some (generate_txt_path slug))
    ⟨[(toL "txt_url", build_generated_file_url pAbs)],
     { note with txt_path := pAbs },
     (match pAbs with | some a => a :: fs | none => fs),
     [toL "txt"]⟩
  else ⟨[], note, fs, []⟩

/-- The overall result of ensure_note_exports: the exports dict, the note (or
none when the call was for a missing note), the filesystem and the formats
actually generated. -/
structure ExportResult where
  exports : List ((List Char) × Option (List Char))
  note : Option Note
  fs : List (List Char)
  generated : List (List Char)
deriving DecidableEq

/-- ensure_note_exports (main.py:233-286): nothing happens for a missing note
or one without processed content; otherwise the pdf block runs, and the docx
and txt blocks run when the export service imported, threading the note and
the filesystem through the blocks in source order. -/
def ensure_note_exports (env : ExportEnv) (fs : List (List Char))
    (note? : Option Note) (authorEmail : Option (List Char)) (force : Bool)
    (formats : Option (List (List Char))) : ExportResult :=
  match note? with
  | none => ⟨[], none, fs, []⟩
  | some note =>
    match note.processed_content with
    | none => ⟨[], some note, fs, []⟩
    | some pc =>
      if pc = [] then ⟨[], some note, fs, []⟩
      else
        let slug := note_export_slug note
        let requested := formats.getD [toL "pdf", toL "docx", toL "txt"]
        let r1 := pdfStep env force (requested.contains (toL "pdf")) fs note
        if env.exportServiceAvailable then
          let r2 := docxStep env force (requested.contains (toL "docx")) slug r1.fs r1.note
          let r3 := txtStep force (requested.contains (toL "txt")) slug r2.fs r2.note
          ⟨r1.exports ++ r2.exports ++ r3.exports, some r3.note, r3.fs,
           r1.generated ++ r2.generated ++ r3.generated⟩
        else ⟨r1.exports, some r1.note, r1.fs, r1.generated⟩

/-- The body of ensure_note_exports once the note and its processed content
are known to be present: the three blocks with the wanted-format flags already
computed (definitionally equal to the let chain of ensure_note_exports). -/
def ensureBody (env : ExportEnv) (force : Bool) (slug : List Char)
    (wPdf wDocx wTxt : Bool) (fs : List (List Char)) (note : Note) : ExportResult :=
  let r1 := pdfStep env force wPdf fs note
  if env.exportServiceAvailable then
    let r2 := docxStep env force wDocx slug r1.fs r1.note
    let r3 := txtStep force wTxt slug r2.fs r2.note
    ⟨r1.exports ++ r2.exports ++ r3.exports, some r3.note, r3.fs,
     r1.generated ++ r2.generated ++ r3.generated⟩
  else ⟨r1.exports, some r1.note, r1.fs, r1.generated⟩

/-- A concrete export environment for witnesses: export service importable,
docx available, pdf toolchain absent. -/
def sampleExportEnv : ExportEnv :=
  ⟨true, true, false, fun _ => none⟩

/-- A concrete completed note for witnesses. -/
def sampleNote : Note where
  id := 7
  user_id := toL "alice-uid"
  text := some (toL "hi")
  settings_json := defaultProcessingSettings
  processed_content := some (toL "enhanced")
  status := .completed
  progress := 100
  progress_message := none
  input_type := toL "text"
  image_url := none
  image_path := none
  image_filename := none
  image_type := none
  pdf_path := none
  tex_path := none
  docx_path := none
  txt_path := none
  project_name := none
  latex_title := none
  include_nickname := false
  nickname := none
  flashcards := []

/-! ### Theorems: round trips of the splitting primitives -/

theorem splitParas_ne_nil : ∀ l : List Char, splitParas l ≠ []
  | [] => by simp [splitParas]
  | [c] => by simp [splitParas]
  | c1 :: c2 :: rest => by
    by_cases h : c1 = '\n' ∧ c2 = '\n'
    · simp [splitParas, h]
    · simp only [splitParas, if_neg h]
      cases hs : splitParas (c2 :: rest) with
      | nil => simp [consHead]
      | cons a t => simp [consHead]

theorem interParas_consHead (c : Char) (ps : List (List Char)) (h : ps ≠ []) :
    interParas (consHead c ps) = c :: interParas ps := by
  match ps with
  | [] => exact absurd rfl h
  | [x] => simp [consHead, interParas]
  | x :: y :: t => simp [consHead, interParas]

theorem interParas_splitParas : ∀ l : List Char, interParas (splitParas l) = l
  | [] => rfl
  | [c] => rfl
  | c1 :: c2 :: rest => by
    by_cases h : c1 = '\n' ∧ c2 = '\n'
    · obtain ⟨h1, h2⟩ := h
      subst h1; subst h2
      have ih := interParas_splitParas rest
      have hne := splitParas_ne_nil rest
      simp only [splitParas, if_pos (And.intro rfl rfl)]
      cases hs : splitParas rest with
      | nil => exact absurd hs hne
      | cons a t =>
        rw [hs] at ih
        simp [interParas, ih]
    · have ih := interParas_splitParas (c2 :: rest)
      have hne := splitParas_ne_nil (c2 :: rest)
      simp only [splitParas, if_neg h]
      rw [interParas_consHead c1 _ hne, ih]

theorem splitLines_ne_nil : ∀ l : List Char, splitLines l ≠ []
  | [] => by simp [splitLines]
  | c :: rest => by
    by_cases h : c = '\n'
    · simp [splitLines, h]
    · simp only [splitLines, if_neg h]
      cases hs : splitLines rest with
      | nil => simp [consHead]
      | cons a t => simp [consHead]

theorem interLines_consHead (c : Char) (ps : List (List Char)) (h : ps ≠ []) :
    interLines (consHead c ps) = c :: interLines ps := by
  match ps with
  | [] => exact absurd rfl h
  | [x] => simp [consHead, interLines]
  | x :: y :: t => simp [consHead, interLines]

theorem interLines_splitLines : ∀ l : List Char, interLines (splitLines l) = l
  | [] => rfl
  | c :: rest => by
    by_cases h : c = '\n'
    · subst h
      have ih := interLines_splitLines rest
      have hne := splitLines_ne_nil rest
      simp only [splitLines, if_pos rfl]
      cases hs : splitLines rest with
      | nil => exact absurd hs hne
      | cons a t =>
        rw [hs] at ih
        simp [interLines, ih]
    · have ih := interLines_splitLines rest
      have hne := splitLines_ne_nil rest
      simp only [splitLines, if_neg h]
      rw [interLines_consHead c _ hne, ih]

theorem not_newline_mem_splitLines :
    ∀ l : List Char, ∀ s ∈ splitLines l, '\n' ∉ s
  | [] => by simp [splitLines]
  | c :: rest => by
    intro s hs
    have ih := not_newline_mem_splitLines rest
    by_cases h : c = '\n'
    · subst h
      simp only [splitLines, if_pos rfl] at hs
      cases hs with
      | head => simp
      | tail _ h0 => exact ih s h0
    · simp only [splitLines, if_neg h] at hs
      cases hrest : splitLines rest with
      | nil => exact absurd hrest (splitLines_ne_nil rest)
      | cons a t =>
        rw [hrest] at hs
        simp only [consHead] at hs
        cases hs with
        | head =>
          intro hmem
          cases List.mem_cons.mp hmem with
          | inl h1 => exact h h1.symm
          | inr h1 => exact ih a (by rw [hrest]; exact List.mem_cons_self a t) h1
        | tail _ h0 => exact ih s (by rw [hrest]; exact List.mem_cons_of_mem a h0)

/-! ### Theorems: the chunking loop -/

theorem withBreak_length (p : List Char) : (withBreak p).length = pwbLen p := by
  simp [withBreak, pwbLen]

theorem sumPwbLen_append (c : List (List Char)) (p : List Char) :
    sumPwbLen (c ++ [p]) = sumPwbLen c + pwbLen p := by
  simp [sumPwbLen]

theorem sumPwbLen_singleton (p : List Char) : sumPwbLen [p] = pwbLen p := by
  simp [sumPwbLen]

theorem join_chunkLoopRaw (limit : Nat) :
    ∀ (paras cur : List (List Char)) (n : Nat),
      (chunkLoopRaw limit paras cur n).join = cur.join ++ (paras.map withBreak).join
  | [], cur, n => by
    by_cases h : cur = [] <;> simp [chunkLoopRaw, h]
  | para :: rest, cur, n => by
    have ih1 := join_chunkLoopRaw limit rest [withBreak para] ((withBreak para).length)
    have ih2 := join_chunkLoopRaw limit rest (cur ++ [withBreak para]) (n + (withBreak para).length)
    simp only [chunkLoopRaw]
    by_cases hc : limit < n + (withBreak para).length ∧ cur ≠ []
    · rw [if_pos hc]
      simp [List.join_cons, ih1, List.append_assoc]
    · rw [if_neg hc]
      rw [ih2]
      simp [List.append_assoc]

theorem join_map_withBreak :
    ∀ ps : List (List Char), ps ≠ [] →
      (ps.map withBreak).join = interParas ps ++ ['\n', '\n']
  | [], h => absurd rfl h
  | [x], _ => by simp [withBreak, interParas]
  | x :: y :: t, _ => by
    have ih := join_map_withBreak (y :: t) (by simp)
    show withBreak x ++ (List.map withBreak (y :: t)).join = interParas (x :: y :: t) ++ ['\n', '\n']
    rw [ih]
    simp [interParas, withBreak, List.append_assoc]

theorem untrimmed_join_over_limit (text : List Char) (maxChars : Option Nat)
    (h : effectiveChunkLimit maxChars < text.length) :
    (split_text_into_chunks_untrimmed text maxChars).join = text ++ ['\n', '\n'] := by
  unfold split_text_into_chunks_untrimmed
  rw [if_neg (by omega)]
  rw [join_chunkLoopRaw]
  simp only [List.join_nil, List.nil_append]
  rw [join_map_withBreak _ (splitParas_ne_nil text), interParas_splitParas]

theorem chunkParas_join (limit : Nat) :
    ∀ (paras cur : List (List Char)) (n : Nat),
      (chunkParas limit paras cur n).join = cur ++ paras
  | [], cur, n => by
    by_cases h : cur = [] <;> simp [chunkParas, h]
  | para :: rest, cur, n => by
    have ih1 := chunkParas_join limit rest [para] (pwbLen para)
    have ih2 := chunkParas_join limit rest (cur ++ [para]) (n + pwbLen para)
    simp only [chunkParas]
    by_cases hc : limit < n + pwbLen para ∧ cur ≠ []
    · rw [if_pos hc]
      simp [List.join_cons, ih1]
    · rw [if_neg hc]
      rw [ih2]
      simp [List.append_assoc]

theorem chunkParas_ne_nil (limit : Nat) :
    ∀ (paras cur : List (List Char)) (n : Nat),
      ∀ c ∈ chunkParas limit paras cur n, c ≠ []
  | [], cur, n => by
    intro c hc
    by_cases h : cur = []
    · simp [chunkParas, h] at hc
    · rw [chunkParas, if_neg h] at hc
      rw [List.mem_singleton] at hc
      subst hc
      exact h
  | para :: rest, cur, n => by
    intro c hc
    simp only [chunkParas] at hc
    by_cases hcond : limit < n + pwbLen para ∧ cur ≠ []
    · rw [if_pos hcond] at hc
      cases hc with
      | head => exact hcond.2
      | tail _ h0 => exact chunkParas_ne_nil limit rest [para] (pwbLen para) c h0
    · rw [if_neg hcond] at hc
      exact chunkParas_ne_nil limit rest (cur ++ [para]) (n + pwbLen para) c hc

theorem chunkParas_head_ext (limit : Nat) :
    ∀ (paras cur : List (List Char)) (n : Nat), cur ≠ [] →
      ∃ d t, chunkParas limit paras cur n = (cur ++ d) :: t
  | [], cur, n, h => ⟨[], [], by simp [chunkParas, h]⟩
  | para :: rest, cur, n, h => by
    simp only [chunkParas]
    by_cases hc : limit < n + pwbLen para ∧ cur ≠ []
    · exact ⟨[], chunkParas limit rest [para] (pwbLen para), by rw [if_pos hc]; simp⟩
    · obtain ⟨d, t, hd⟩ :=
        chunkParas_head_ext limit rest (cur ++ [para]) (n + pwbLen para) (by simp)
      exact ⟨para :: d, t, by rw [if_neg hc, hd]; simp⟩

theorem chunkParas_chain (limit : Nat) :
    ∀ (paras cur : List (List Char)),
      List.Chain' (fun c c2 => limit < sumPwbLen c + pwbLen (c2.headD []))
        (chunkParas limit paras cur (sumPwbLen cur))
  | [], cur => by
    by_cases h : cur = [] <;> simp [chunkParas, h]
  | para :: rest, cur => by
    simp only [chunkParas]
    by_cases hc : limit < sumPwbLen cur + pwbLen para ∧ cur ≠ []
    · rw [if_pos hc]
      have ih := chunkParas_chain limit rest [para]
      rw [sumPwbLen_singleton] at ih
      apply List.chain'_cons'.mpr
      refine ⟨?_, ih⟩
      intro y hy
      obtain ⟨d, t, hd⟩ :=
        chunkParas_head_ext limit rest [para] (pwbLen para) (by simp)
      rw [hd] at hy
      simp only [List.head?_cons, Option.mem_def, Option.some.injEq] at hy
      subst hy
      simpa using hc.1
    · rw [if_neg hc]
      have ih := chunkParas_chain limit rest (cur ++ [para])
      rw [sumPwbLen_append] at ih
      exact ih

theorem chunkParas_size (limit : Nat) :
    ∀ (paras cur : List (List Char)),
      (sumPwbLen cur ≤ limit ∨ ∃ p, cur = [p]) →
      ∀ c ∈ chunkParas limit paras cur (sumPwbLen cur),
        sumPwbLen c ≤ limit ∨ ∃ p, c = [p]
  | [], cur, hinv => by
    intro c hc
    by_cases h : cur = []
    · simp [chunkParas, h] at hc
    · rw [chunkParas, if_neg h] at hc
      rw [List.mem_singleton] at hc
      subst hc
      exact hinv
  | para :: rest, cur, hinv => by
    intro c hc
    simp only [chunkParas] at hc
    by_cases hcond : limit < sumPwbLen cur + pwbLen para ∧ cur ≠ []
    · rw [if_pos hcond] at hc
      cases hc with
      | head => exact hinv
      | tail _ h0 =>
        have ih := chunkParas_size limit rest [para] (Or.inr ⟨para, rfl⟩)
        rw [sumPwbLen_singleton] at ih
        exact ih c h0
    · rw [if_neg hcond] at hc
      have hinv2 : sumPwbLen (cur ++ [para]) ≤ limit ∨ ∃ p, cur ++ [para] = [p] := by
        by_cases h0 : cur = []
        · subst h0
          exact Or.inr ⟨para, rfl⟩
        · left
          rw [sumPwbLen_append]
          exact Nat.le_of_not_lt (fun hA => hcond ⟨hA, h0⟩)
      have ih := chunkParas_size limit rest (cur ++ [para]) hinv2
      rw [sumPwbLen_append] at ih
      exact ih c hc

theorem chunkLoop_eq_chunkParas (limit : Nat) :
    ∀ (paras cur : List (List Char)) (n : Nat),
      chunkLoop limit paras (cur.map withBreak) n =
        (chunkParas limit paras cur n).map (fun c => pyStrip (parasToChunk c))
  | [], cur, n => by
    simp only [chunkLoop, chunkParas, List.map_eq_nil]
    by_cases h : cur = []
    · rw [if_pos h, if_pos h]
      simp
    · rw [if_neg h, if_neg h]
      simp [parasToChunk]
  | para :: rest, cur, n => by
    simp only [chunkLoop, chunkParas, withBreak_length, ne_eq, List.map_eq_nil]
    by_cases hc : limit < n + pwbLen para ∧ ¬cur = []
    · rw [if_pos hc, if_pos hc]
      have ih1 : chunkLoop limit rest [withBreak para] (pwbLen para) =
          (chunkParas limit rest [para] (pwbLen para)).map (fun c => pyStrip (parasToChunk c)) :=
        chunkLoop_eq_chunkParas limit rest [para] (pwbLen para)
      rw [ih1]
      simp [parasToChunk]
    · rw [if_neg hc, if_neg hc]
      rw [show List.map withBreak cur ++ [withBreak para] = List.map withBreak (cur ++ [para]) by simp]
      exact chunkLoop_eq_chunkParas limit rest (cur ++ [para]) (n + pwbLen para)

theorem split_text_into_chunks_eq_structured (text : List Char) (limit : Nat)
    (h0 : limit ≠ 0) (h1 : limit < text.length) :
    split_text_into_chunks text (some limit) =
      ((chunkParas limit (splitParas text) [] 0).map
        (fun c => pyStrip (parasToChunk c))).filter (fun c => ¬ c = []) := by
  have he : effectiveChunkLimit (some limit) = limit := by
    simp [effectiveChunkLimit, h0]
  have h2 : chunkLoop limit (splitParas text) [] 0 =
      (chunkParas limit (splitParas text) [] 0).map (fun c => pyStrip (parasToChunk c)) :=
    chunkLoop_eq_chunkParas limit (splitParas text) [] 0
  simp only [split_text_into_chunks, he]
  rw [if_neg (by omega), h2]

/-! ### Claim C2 and claim C3 -/

/-- Claim C2, counterexample: the loop appends a double-newline break to every
paragraph, the final one included, so at text aaaa with limit 3 (over the
limit, a single paragraph) the concatenation of the chunks taken before the
engine trims them is aaaa plus a trailing double newline, not the original
text. -/
theorem C2_counterexample :
    (split_text_into_chunks_untrimmed (toL "aaaa") (some 3)).join ≠ toL "aaaa" := by
  decide

/-- Claim C2 (amended): concatenating all chunks taken before the engine's own
per-chunk whitespace trimming reconstructs the original text exactly when the
text is within the chunk limit, and reconstructs the original text followed by
exactly one extra double-newline paragraph break (appended by the splitter to
the last paragraph) when the text is longer than the limit; and for input
within the limit exactly one chunk is produced, the text itself. -/
theorem C2_amended_chunk_completeness (text : List Char) (maxChars : Option Nat) :
    ((split_text_into_chunks_untrimmed text maxChars).join =
      if text.length ≤ effectiveChunkLimit maxChars then text else text ++ ['\n', '\n'])
    ∧ (text.length ≤ effectiveChunkLimit maxChars →
        split_text_into_chunks text maxChars = [text]) := by
  constructor
  · by_cases h : text.length ≤ effectiveChunkLimit maxChars
    · rw [if_pos h]
      simp only [split_text_into_chunks_untrimmed]
      rw [if_pos h]
      simp
    · rw [if_neg h]
      exact untrimmed_join_over_limit text maxChars (by omega)
  · intro h
    simp only [split_text_into_chunks]
    rw [if_pos h]

/-- Witness for C2_amended_chunk_completeness at a small input within the
default limit. -/
theorem C2_amended_witness :
    ((split_text_into_chunks_untrimmed (toL "hi") none).join = toL "hi")
    ∧ split_text_into_chunks (toL "hi") none = [toL "hi"] := by
  have h := C2_amended_chunk_completeness (toL "hi") none
  refine ⟨?_, h.2 (by decide)⟩
  have h1 := h.1
  rw [if_pos (by decide)] at h1
  exact h1

/-- Claim C3: for text longer than the limit, the chunks returned by
_split_text_into_chunks are exactly the greedy grouping chunkParas of the
paragraph list (each chunk trimmed, empties dropped); the groups concatenate
back to the full paragraph list, so every chunk boundary is a double-newline
paragraph boundary and no paragraph is ever split; every group is non-empty;
a group is flushed exactly when the next paragraph (with its break) would push
it past the limit; each group fits within the limit unless it is a single
paragraph; and a paragraph longer than the limit is kept intact as its own
chunk. -/
theorem C3_paragraph_boundary_chunking (text : List Char) (limit : Nat)
    (h0 : limit ≠ 0) (h1 : limit < text.length) :
    split_text_into_chunks text (some limit) =
      ((chunkParas limit (splitParas text) [] 0).map
        (fun c => pyStrip (parasToChunk c))).filter (fun c => ¬ c = [])
    ∧ (chunkParas limit (splitParas text) [] 0).join = splitParas text
    ∧ (∀ c ∈ chunkParas limit (splitParas text) [] 0, c ≠ [])
    ∧ List.Chain' (fun c c2 => limit < sumPwbLen c + pwbLen (c2.headD []))
        (chunkParas limit (splitParas text) [] 0)
    ∧ (∀ c ∈ chunkParas limit (splitParas text) [] 0, sumPwbLen c ≤ limit ∨ ∃ p, c = [p])
    ∧ (∀ c ∈ chunkParas limit (splitParas text) [] 0, ∀ p ∈ c,
        limit < p.length → c = [p]) := by
  have hsize : ∀ c ∈ chunkParas limit (splitParas text) [] 0,
      sumPwbLen c ≤ limit ∨ ∃ p, c = [p] := by
    have h' := chunkParas_size limit (splitParas text) [] (Or.inl (Nat.zero_le limit))
    exact h'
  refine ⟨split_text_into_chunks_eq_structured text limit h0 h1, ?_, ?_, ?_, hsize, ?_⟩
  · have h' := chunkParas_join limit (splitParas text) [] 0
    simpa using h'
  · exact chunkParas_ne_nil limit (splitParas text) [] 0
  · exact chunkParas_chain limit (splitParas text) []
  · intro c hc p hp hlen
    rcases hsize c hc with hs | ⟨q, rfl⟩
    · exfalso
      have hmem : pwbLen p ∈ c.map pwbLen := List.mem_map_of_mem pwbLen hp
      have hle : pwbLen p ≤ sumPwbLen c :=
        List.single_le_sum (fun x _ => Nat.zero_le x) _ hmem
      have : p.length + 2 ≤ limit := by
        have : pwbLen p ≤ limit := le_trans hle hs
        simpa [pwbLen] using this
      omega
    · rw [List.mem_singleton] at hp
      rw [hp]

/-- Witness for C3_paragraph_boundary_chunking at a three-paragraph text of
length 10 with limit 5. -/
theorem C3_witness :
    (5 : Nat) ≠ 0 ∧ 5 < (toL "aa\n\nbb\n\ncc").length
    ∧ (split_text_into_chunks (toL "aa\n\nbb\n\ncc") (some 5) =
        ((chunkParas 5 (splitParas (toL "aa\n\nbb\n\ncc")) [] 0).map
          (fun c => pyStrip (parasToChunk c))).filter (fun c => ¬ c = [])
      ∧ (chunkParas 5 (splitParas (toL "aa\n\nbb\n\ncc")) [] 0).join =
          splitParas (toL "aa\n\nbb\n\ncc")
      ∧ (∀ c ∈ chunkParas 5 (splitParas (toL "aa\n\nbb\n\ncc")) [] 0, c ≠ [])
      ∧ List.Chain' (fun c c2 => 5 < sumPwbLen c + pwbLen (c2.headD []))
          (chunkParas 5 (splitParas (toL "aa\n\nbb\n\ncc")) [] 0)
      ∧ (∀ c ∈ chunkParas 5 (splitParas (toL "aa\n\nbb\n\ncc")) [] 0,
          sumPwbLen c ≤ 5 ∨ ∃ p, c = [p])
      ∧ (∀ c ∈ chunkParas 5 (splitParas (toL "aa\n\nbb\n\ncc")) [] 0, ∀ p ∈ c,
          5 < p.length → c = [p])) :=
  ⟨by decide, by decide,
    C3_paragraph_boundary_chunking (toL "aa\n\nbb\n\ncc") 5 (by decide) (by decide)⟩

/-! ### Theorems: the fallback enhancement and settings normalization -/

theorem mem_dropWhileP (p : Char → Bool) :
    ∀ (l : List Char) (c : Char), c ∈ l.dropWhile p → c ∈ l
  | [], _, h => h
  | a :: l, c, h => by
    by_cases ha : p a
    · rw [List.dropWhile_cons] at h
      rw [if_pos ha] at h
      exact List.mem_cons_of_mem a (mem_dropWhileP p l c h)
    · rw [List.dropWhile_cons] at h
      rw [if_neg ha] at h
      exact h

theorem mem_pyStrip (l : List Char) (c : Char) (h : c ∈ pyStrip l) : c ∈ l := by
  unfold pyStrip pyRStrip pyLStrip at h
  rw [List.mem_reverse] at h
  have h2 := mem_dropWhileP pySpace _ _ h
  rw [List.mem_reverse] at h2
  exact mem_dropWhileP pySpace _ _ h2

theorem splitLines_cons_newline (t : List Char) :
    splitLines ('\n' :: t) = [] :: splitLines t := by
  simp [splitLines]

theorem splitLines_append_no_newline :
    ∀ (xs : List Char), '\n' ∉ xs → ∀ t, splitLines (xs ++ '\n' :: t) = xs :: splitLines t
  | [], _, t => by simp [splitLines]
  | c :: xs, h, t => by
    have hc : ¬ c = '\n' := fun e => h (e ▸ List.mem_cons_self c xs)
    have ih := splitLines_append_no_newline xs (fun hm => h (List.mem_cons_of_mem c hm)) t
    rw [List.cons_append]
    rw [splitLines, if_neg hc, ih]
    simp [consHead]

theorem splitLines_no_newline : ∀ (x : List Char), '\n' ∉ x → splitLines x = [x]
  | [], _ => rfl
  | c :: x, h => by
    have hc : ¬ c = '\n' := fun e => h (e ▸ List.mem_cons_self c x)
    have ih := splitLines_no_newline x (fun hm => h (List.mem_cons_of_mem c hm))
    rw [splitLines, if_neg hc, ih]
    simp [consHead]

theorem splitLines_interLines :
    ∀ ls : List (List Char), ls ≠ [] → (∀ s ∈ ls, '\n' ∉ s) →
      splitLines (interLines ls) = ls
  | [], h, _ => absurd rfl h
  | [x], _, hn => by
    simp only [interLines]
    exact splitLines_no_newline x (hn x (by simp))
  | x :: y :: t, _, hn => by
    have ih := splitLines_interLines (y :: t) (by simp)
      (fun s hs => hn s (List.mem_cons_of_mem x hs))
    show splitLines (x ++ '\n' :: interLines (y :: t)) = x :: y :: t
    rw [splitLines_append_no_newline x (hn x (by simp)), ih]

theorem not_newline_bulletLine (l : List Char) (h : '\n' ∉ l) : '\n' ∉ bulletLine l := by
  unfold bulletLine
  by_cases hcond : pyStrip l ≠ [] ∧ startsWithChar '#' l = false ∧ startsWithChar '═' l = false
  · rw [if_pos hcond]
    intro hm
    rcases List.mem_cons.mp hm with h1 | h1
    · exact absurd h1 (by decide)
    · rcases List.mem_cons.mp h1 with h2 | h2
      · exact absurd h2 (by decide)
      · exact h (mem_pyStrip l '\n' h2)
  · rw [if_neg hcond]
    exact h

theorem headerBanner_decomp :
    headerBanner =
      toL "# 📝 Enhanced Notes" ++ '\n' :: '\n' :: (fallbackDivider ++ ['\n', '\n']) := by
  decide

theorem splitLines_headerBanner_append (text : List Char) :
    splitLines (headerBanner ++ text) =
      toL "# 📝 Enhanced Notes" :: [] :: fallbackDivider :: [] :: splitLines text := by
  have e : headerBanner ++ text =
      toL "# 📝 Enhanced Notes" ++ '\n' :: '\n' :: (fallbackDivider ++ '\n' :: '\n' :: text) := by
    rw [headerBanner_decomp]
    simp [List.append_assoc]
  rw [e]
  rw [splitLines_append_no_newline _ (by decide)]
  rw [splitLines_cons_newline]
  rw [splitLines_append_no_newline _ (by decide)]
  rw [splitLines_cons_newline]

theorem fallback_headers_bullets (text : List Char) (s : ProcessingSettings)
    (h1 : s.add_headers = true) (h2 : s.add_bullet_points = true)
    (h3 : s.expand = false) (h4 : s.summarize = false) :
    create_fallback_enhanced_text text s =
      headerBanner ++ interLines ((splitLines text).map bulletLine)
    ∧ splitLines (create_fallback_enhanced_text text s) =
      toL "# 📝 Enhanced Notes" :: [] :: fallbackDivider :: [] ::
        (splitLines text).map bulletLine := by
  have hout : create_fallback_enhanced_text text s =
      interLines ((splitLines (headerBanner ++ text)).map bulletLine) := by
    simp [create_fallback_enhanced_text, h1, h2, h3, h4]
  have bA : bulletLine (toL "# 📝 Enhanced Notes") = toL "# 📝 Enhanced Notes" := by decide
  have bD : bulletLine fallbackDivider = fallbackDivider := by decide
  have bE : bulletLine ([] : List Char) = [] := by decide
  rw [splitLines_headerBanner_append] at hout
  simp only [List.map_cons, bA, bD, bE] at hout
  have hM : (splitLines text).map bulletLine ≠ [] := by
    intro hnil
    exact splitLines_ne_nil text (List.map_eq_nil.mp hnil)
  have hMnl : ∀ s0 ∈ (splitLines text).map bulletLine, '\n' ∉ s0 := by
    intro s0 hs0
    obtain ⟨l, hl, rfl⟩ := List.mem_map.mp hs0
    exact not_newline_bulletLine l (not_newline_mem_splitLines text l hl)
  constructor
  · rw [hout]
    cases hMc : (splitLines text).map bulletLine with
    | nil => exact absurd hMc hM
    | cons m0 M => 
      show interLines (toL "# 📝 Enhanced Notes" :: [] :: fallbackDivider :: [] :: m0 :: M) =
        headerBanner ++ interLines (m0 :: M)
      rw [headerBanner_decomp]
      show toL "# 📝 Enhanced Notes" ++ '\n' ::
          interLines ([] :: fallbackDivider :: [] :: m0 :: M) = _
      rw [show interLines ([] :: fallbackDivider :: [] :: m0 :: M) =
          [] ++ '\n' :: interLines (fallbackDivider :: [] :: m0 :: M) from rfl]
      rw [show interLines (fallbackDivider :: [] :: m0 :: M) =
          fallbackDivider ++ '\n' :: interLines ([] :: m0 :: M) from rfl]
      rw [show interLines ([] :: m0 :: M) = [] ++ '\n' :: interLines (m0 :: M) from rfl]
      simp [List.append_assoc]
  · rw [hout]
    rw [splitLines_interLines _ (by simp) ?_]
    intro s0 hs0
    rcases List.mem_cons.mp hs0 with rfl | hs0
    · decide
    rcases List.mem_cons.mp hs0 with rfl | hs0
    · simp
    rcases List.mem_cons.mp hs0 with rfl | hs0
    · decide
    rcases List.mem_cons.mp hs0 with rfl | hs0
    · simp
    exact hMnl s0 hs0

/-! ### Claim C8 and claim C10 -/

/-- Claim C8, counterexample: with the backend unavailable and both
add_headers and add_bullet_points set, an input line that itself starts with a
hash (here the line consisting of a hash, a space and the letter A) is passed
through unchanged by the bullet transform, so it never appears bullet-prefixed
in the output, contradicting the claim that every non-empty input line does. -/
theorem C8_counterexample :
    ¬ (∀ l ∈ splitLines (toL "# A\nalpha"), pyStrip l ≠ [] →
        ('•' :: ' ' :: pyStrip l) ∈
          splitLines (create_fallback_enhanced_text (toL "# A\nalpha") c8FallbackSettings)) := by
  decide

/-- Claim C8 (amended): when the generation backend is unavailable and the
settings have add_headers and add_bullet_points set (the other toggles off),
the fallback output starts with the deterministic header banner, and every
input line whose stripped text is non-empty and which starts with neither a
hash nor a divider character appears in the output as a line consisting of a
bullet, a space and its stripped text. -/
theorem C8_amended_fallback (text : List Char) (s : ProcessingSettings)
    (h1 : s.add_headers = true) (h2 : s.add_bullet_points = true)
    (h3 : s.expand = false) (h4 : s.summarize = false) :
    (∃ rest, create_fallback_enhanced_text text s = headerBanner ++ rest)
    ∧ ∀ l ∈ splitLines text, pyStrip l ≠ [] →
        startsWithChar '#' l = false → startsWithChar '═' l = false →
        ('•' :: ' ' :: pyStrip l) ∈ splitLines (create_fallback_enhanced_text text s) := by
  obtain ⟨hA, hB⟩ := fallback_headers_bullets text s h1 h2 h3 h4
  refine ⟨⟨_, hA⟩, ?_⟩
  intro l hl hs hh hd
  rw [hB]
  have hb : bulletLine l = '•' :: ' ' :: pyStrip l := by
    unfold bulletLine
    rw [if_pos ⟨hs, hh, hd⟩]
  refine List.mem_cons_of_mem _ (List.mem_cons_of_mem _ (List.mem_cons_of_mem _
    (List.mem_cons_of_mem _ ?_)))
  rw [← hb]
  exact List.mem_map_of_mem bulletLine hl

/-- Witness for C8_amended_fallback on a concrete two-line input. -/
theorem C8_amended_witness :
    c8FallbackSettings.add_headers = true
    ∧ c8FallbackSettings.add_bullet_points = true
    ∧ c8FallbackSettings.expand = false
    ∧ c8FallbackSettings.summarize = false
    ∧ ((∃ rest, create_fallback_enhanced_text (toL "hello\nworld") c8FallbackSettings =
          headerBanner ++ rest)
      ∧ ∀ l ∈ splitLines (toL "hello\nworld"), pyStrip l ≠ [] →
          startsWithChar '#' l = false → startsWithChar '═' l = false →
          ('•' :: ' ' :: pyStrip l) ∈
            splitLines (create_fallback_enhanced_text (toL "hello\nworld") c8FallbackSettings)) :=
  ⟨rfl, rfl, rfl, rfl,
    C8_amended_fallback (toL "hello\nworld") c8FallbackSettings rfl rfl rfl rfl⟩

/-- Claim C10: a string settings payload that fails to parse as JSON is
silently replaced by an empty keyword dictionary, so ensure_processing_settings
returns a ProcessingSettings with every field at its declared default and
raises nothing, discarding whatever the caller meant to configure. -/
theorem C10_unparseable_settings_default (jsonLoads : List Char → Option SettingsDict)
    (s : List Char) (h : jsonLoads s = none) :
    ensure_processing_settings jsonLoads (.str s) = defaultProcessingSettings := by
  simp only [ensure_processing_settings, h]
  decide

/-- Witness for C10_unparseable_settings_default with a parser that rejects
everything. -/
theorem C10_witness :
    (fun _ : List Char => (none : Option SettingsDict)) (toL "not json") = none
    ∧ ensure_processing_settings (fun _ : List Char => (none : Option SettingsDict))
        (.str (toL "not json")) = defaultProcessingSettings :=
  ⟨rfl, C10_unparseable_settings_default (fun _ => none) (toL "not json") rfl⟩

/-! ### Claim C1 and claim C7 -/

/-- Claim C1 (code evaluation): the ProcessingStatus enum that main.py imports
has no CANCELLED member, yet cancel_note_processing evaluates
ProcessingStatus.CANCELLED on its first status check, so every cancel request
- whatever the status of the note, PROCESSING included - raises
AttributeError instead of either succeeding or returning the claimed
invalid-state errors. -/
theorem C1_cancel_always_raises (note : Note) :
    cancel_note_processing note = .error .attributeError := by
  have h : processingStatusAttr "CANCELLED" = none := by decide
  unfold cancel_note_processing
  rw [h]

/-- Claim C7, counterexample: the note created by create_note for a concrete
request is in status PROCESSING, not PENDING. -/
theorem C7_counterexample :
    (create_note_record 1 (toL "u1") (toL "some text") defaultProcessingSettings).status ≠
      ProcessingStatus.pending := by
  decide

/-- Claim C7 (amended): every job is created directly in status PROCESSING
with progress 0 - text jobs with the queued-for-processing message and image
jobs with the uploading message; no job is ever created in PENDING. -/
theorem C7_amended_created_processing (newId : Nat) (uid text : List Char)
    (ps : ProcessingSettings) (url path fname itype : List Char) :
    (create_note_record newId uid text ps).status = ProcessingStatus.processing
    ∧ (create_note_record newId uid text ps).progress = 0
    ∧ (create_note_record newId uid text ps).progress_message =
        some (toL "Queued for processing")
    ∧ (upload_image_note_record newId uid url path fname itype ps).status =
        ProcessingStatus.processing
    ∧ (upload_image_note_record newId uid url path fname itype ps).progress = 0
    ∧ (upload_image_note_record newId uid url path fname itype ps).progress_message =
        some (toL "Uploading media...") :=
  ⟨rfl, rfl, rfl, rfl, rfl, rfl⟩

/-! ### Claim C4 and claim C5 -/

theorem mem_zipWith {α β γ : Type} (f : α → β → γ) :
    ∀ (as : List α) (bs : List β), ∀ x ∈ List.zipWith f as bs,
      ∃ a ∈ as, ∃ b ∈ bs, x = f a b
  | [], bs, x, h => by simp at h
  | a :: as, [], x, h => by simp at h
  | a :: as, b :: bs, x, h => by
    rw [List.zipWith_cons_cons] at h
    rcases List.mem_cons.mp h with rfl | h0
    · exact ⟨a, by simp, b, by simp, rfl⟩
    · obtain ⟨a0, ha0, b0, hb0, rfl⟩ := mem_zipWith f as bs x h0
      exact ⟨a0, List.mem_cons_of_mem a ha0, b0, List.mem_cons_of_mem b hb0, rfl⟩

theorem map_id_zipWith_mkAi (ts : List Char) :
    ∀ (cs : List FlashEntry) (us : List (List Char)),
      (List.zipWith (mkAiFlashcard ts) cs us).map (fun c => c.id) = us.take cs.length
  | [], us => by simp
  | c :: cs, [] => by simp
  | c :: cs, u :: us => by
    rw [List.zipWith_cons_cons, List.map_cons, map_id_zipWith_mkAi ts cs us]
    rfl

/-- Claim C4 (code evaluation): the pipeline's flashcard stage never changes
the note.  The call at main.py:385-390 passes the keyword min_per_topic, which
generate_flashcards (chatgpt_service.py:484-490) does not declare, so every
run raises TypeError before the request is made; the except swallows it and
returns, leaving the flashcards untouched whatever the settings, text and
backend response are, so no cards are ever derived. -/
theorem C4_flashcard_call_always_fails (note : Note) (text : Option (List Char))
    (settings : ProcessingSettings) (clientAvailable : Bool)
    (response : Option (List FlashEntry)) (timestamp : List Char)
    (uuids : List (List Char)) :
    maybe_generate_flashcards_for_note note text settings clientAvailable response
      timestamp uuids = note := by
  have hbind : flashcardCallBinds = false := by decide
  cases text with
  | none => rfl
  | some t => simp [maybe_generate_flashcards_for_note, hbind]

/-- Claim C5: the merge applied once a batch of AI cards has been generated
(main.py:398-416).  Provided the uuid supply is long enough, duplicate-free
and fresh with respect to the stored cards, and every batch card has a
non-empty term and definition (as _parse_flashcard_response guarantees), the
merged list is exactly the stored manual cards, in order and unchanged,
followed by the new AI cards in batch order; the non-manual cards of the
result are exactly the new batch (so the old AI cards are all replaced and the
AI-card count equals the batch size), and every new card carries source ai,
the shared creation timestamp and a fresh id distinct from every stored id and
from every other new id. -/
theorem C5_merge_preserves_manual (existing : List Flashcard) (cards : List FlashEntry)
    (timestamp : List Char) (uuids : List (List Char))
    (hvalid : ∀ c ∈ cards, ¬ c.term = [] ∧ ¬ c.definition = [])
    (hlen : cards.length ≤ uuids.length)
    (hnodup : uuids.Nodup)
    (hfresh : ∀ u ∈ uuids, ∀ e ∈ existing, u ≠ e.id) :
    mergeFlashcards existing cards timestamp uuids =
      existing.filter (fun c => c.source = toL "manual")
        ++ List.zipWith (mkAiFlashcard timestamp) cards uuids
    ∧ (mergeFlashcards existing cards timestamp uuids).filter
        (fun c => c.source = toL "manual") =
      existing.filter (fun c => c.source = toL "manual")
    ∧ (mergeFlashcards existing cards timestamp uuids).filter
        (fun c => ¬ c.source = toL "manual") =
      List.zipWith (mkAiFlashcard timestamp) cards uuids
    ∧ ((mergeFlashcards existing cards timestamp uuids).filter
        (fun c => ¬ c.source = toL "manual")).length = cards.length
    ∧ (∀ c ∈ (mergeFlashcards existing cards timestamp uuids).filter
        (fun c => ¬ c.source = toL "manual"),
        c.source = toL "ai" ∧ c.created_at = some timestamp ∧ ∀ e ∈ existing, c.id ≠ e.id)
    ∧ (((mergeFlashcards existing cards timestamp uuids).filter
        (fun c => ¬ c.source = toL "manual")).map (fun c => c.id)).Nodup := by
  have hfilter : cards.filter (fun c => ¬ c.term = [] ∧ ¬ c.definition = []) = cards := by
    rw [List.filter_eq_self]
    intro a ha
    have h := hvalid a ha
    simp [h.1, h.2]
  have hmerge : mergeFlashcards existing cards timestamp uuids =
      existing.filter (fun c => c.source = toL "manual")
        ++ List.zipWith (mkAiFlashcard timestamp) cards uuids := by
    unfold mergeFlashcards
    rw [hfilter]
  have hai : ∀ x ∈ List.zipWith (mkAiFlashcard timestamp) cards uuids,
      x.source = toL "ai" ∧ x.created_at = some timestamp ∧ x.id ∈ uuids := by
    intro x hx
    obtain ⟨a, _, b, hb, rfl⟩ := mem_zipWith (mkAiFlashcard timestamp) cards uuids x hx
    exact ⟨rfl, rfl, hb⟩
  have hne : ¬ (toL "ai" = toL "manual") := by decide
  have hfm : (List.zipWith (mkAiFlashcard timestamp) cards uuids).filter
      (fun c => c.source = toL "manual") = [] := by
    rw [List.filter_eq_nil]
    intro a ha
    have h := (hai a ha).1
    simp [h, hne]
  have hfa : (List.zipWith (mkAiFlashcard timestamp) cards uuids).filter
      (fun c => ¬ c.source = toL "manual") =
      List.zipWith (mkAiFlashcard timestamp) cards uuids := by
    rw [List.filter_eq_self]
    intro a ha
    have h := (hai a ha).1
    simp [h, hne]
  have hmm : (existing.filter (fun c => c.source = toL "manual")).filter
      (fun c => c.source = toL "manual") =
      existing.filter (fun c => c.source = toL "manual") := by
    rw [List.filter_eq_self]
    intro a ha
    exact (List.mem_filter.mp ha).2
  have hma : (existing.filter (fun c => c.source = toL "manual")).filter
      (fun c => ¬ c.source = toL "manual") = [] := by
    rw [List.filter_eq_nil]
    intro a ha
    have h := (List.mem_filter.mp ha).2
    simp only [decide_eq_true_eq] at h
    simp [h]
  have hnonmanual : (mergeFlashcards existing cards timestamp uuids).filter
      (fun c => ¬ c.source = toL "manual") =
      List.zipWith (mkAiFlashcard timestamp) cards uuids := by
    rw [hmerge, List.filter_append, hma, hfa, List.nil_append]
  refine ⟨hmerge, ?_, hnonmanual, ?_, ?_, ?_⟩
  · rw [hmerge, List.filter_append, hmm, hfm, List.append_nil]
  · rw [hnonmanual, List.length_zipWith]
    omega
  · intro c hc
    rw [hnonmanual] at hc
    obtain ⟨hsrc, hts, hid⟩ := hai c hc
    exact ⟨hsrc, hts, hfresh c.id hid⟩
  · rw [hnonmanual, map_id_zipWith_mkAi]
    exact hnodup.sublist (List.take_sublist cards.length uuids)

/-- Witness for C5_merge_preserves_manual: one stored manual card, one stored
AI card, a one-card batch and a fresh uuid. -/
theorem C5_witness :
    (∀ c ∈ [(⟨toL "t", toL "term", toL "def"⟩ : FlashEntry)],
      ¬ c.term = [] ∧ ¬ c.definition = [])
    ∧ ([(⟨toL "t", toL "term", toL "def"⟩ : FlashEntry)].length ≤ [toL "u9"].length)
    ∧ ([toL "u9"] : List (List Char)).Nodup
    ∧ (∀ u ∈ [toL "u9"],
        ∀ e ∈ [(⟨toL "m1", toL "tp", toL "tm", toL "df", toL "manual", none⟩ : Flashcard),
               (⟨toL "a1", toL "tp", toL "tm", toL "df", toL "ai", none⟩ : Flashcard)],
        u ≠ e.id)
    ∧ (mergeFlashcards
        [⟨toL "m1", toL "tp", toL "tm", toL "df", toL "manual", none⟩,
         ⟨toL "a1", toL "tp", toL "tm", toL "df", toL "ai", none⟩]
        [⟨toL "t", toL "term", toL "def"⟩] (toL "2024-01-01") [toL "u9"]).filter
        (fun c => c.source = toL "manual") =
      [(⟨toL "m1", toL "tp", toL "tm", toL "df", toL "manual", none⟩ : Flashcard)].filter
        (fun c => c.source = toL "manual") ++ [] := by
  refine ⟨by decide, by decide, by decide, by decide, ?_⟩
  have h := C5_merge_preserves_manual
    [⟨toL "m1", toL "tp", toL "tm", toL "df", toL "manual", none⟩,
     ⟨toL "a1", toL "tp", toL "tm", toL "df", toL "ai", none⟩]
    [⟨toL "t", toL "term", toL "def"⟩] (toL "2024-01-01") [toL "u9"]
    (by decide) (by decide) (by decide) (by decide)
  rw [h.2.1]
  decide

/-! ### Theorems: the export manager -/

theorem contains_true_of_mem {α : Type} [BEq α] [LawfulBEq α] {l : List α} {a : α}
    (h : a ∈ l) : l.contains a = true := by
  simp [List.contains, List.elem_iff]
  exact h

theorem mem_of_contains_true {α : Type} [BEq α] [LawfulBEq α] {l : List α} {a : α}
    (h : l.contains a = true) : a ∈ l := by
  simpa [List.contains, List.elem_iff] using h

theorem txt_not_mem_nil : toL "txt" ∉ ([] : List (List Char)) :=
  List.not_mem_nil _

theorem txt_not_mem_pdf : toL "txt" ∉ [toL "pdf"] := by decide

theorem txt_not_mem_docx : toL "txt" ∉ [toL "docx"] := by decide

theorem export_file_exists_mono (fs fs2 : List (List Char)) (p : Option (List Char))
    (hsub : ∀ x ∈ fs, x ∈ fs2) (h : export_file_exists fs p = true) :
    export_file_exists fs2 p = true := by
  unfold export_file_exists at h ⊢
  cases habs : absolute_export_path p with
  | none =>
    rw [habs] at h
    exact Bool.noConfusion h
  | some a =>
    rw [habs] at h
    have h2 : fs.contains a = true := h
    have h3 : fs2.contains a = true := contains_true_of_mem (hsub a (mem_of_contains_true h2))
    exact h3

theorem pdfStep_inv (env : ExportEnv) (force w : Bool) (fs : List (List Char))
    (note : Note) :
    (pdfStep env force w fs note).note.txt_path = note.txt_path
    ∧ (pdfStep env force w fs note).note.processed_content = note.processed_content
    ∧ (∀ p ∈ fs, p ∈ (pdfStep env force w fs note).fs)
    ∧ toL "txt" ∉ (pdfStep env force w fs note).generated := by
  simp only [pdfStep]
  by_cases h1 : (w && (force || ! export_file_exists fs note.pdf_path)) = true
  · rw [if_pos h1]
    by_cases h2 : env.pdfServicesAvailable = true
    · rw [if_pos h2]
      cases hm : env.pdfOutcome note with
      | none => exact ⟨rfl, rfl, fun p hp => hp, txt_not_mem_nil⟩
      | some pr =>
        obtain ⟨pdfp, texp⟩ := pr
        refine ⟨rfl, rfl, ?_, txt_not_mem_pdf⟩
        intro p hp
        cases habs : absolute_export_path (some pdfp) with
        | none => simpa [habs] using hp
        | some a =>
          simp only [habs]
          exact List.mem_cons_of_mem a hp
    · rw [if_neg h2]
      exact ⟨rfl, rfl, fun p hp => hp, txt_not_mem_nil⟩
  · rw [if_neg h1]
    exact ⟨rfl, rfl, fun p hp => hp, txt_not_mem_nil⟩

theorem docxStep_inv (env : ExportEnv) (force w : Bool) (slug : List Char)
    (fs : List (List Char)) (note : Note) :
    (docxStep env force w slug fs note).note.txt_path = note.txt_path
    ∧ (docxStep env force w slug fs note).note.processed_content = note.processed_content
    ∧ (∀ p ∈ fs, p ∈ (docxStep env force w slug fs note).fs)
    ∧ toL "txt" ∉ (docxStep env force w slug fs note).generated := by
  simp only [docxStep]
  by_cases h1 : ((w && (force || ! export_file_exists fs note.docx_path))
      && env.docxAvailable) = true
  · rw [if_pos h1]
    refine ⟨rfl, rfl, ?_, txt_not_mem_docx⟩
    intro p hp
    cases habs : absolute_export_path (some (generate_docx_path slug)) with
    | none => simpa [habs] using hp
    | some a =>
      simp only [habs]
      exact List.mem_cons_of_mem a hp
  · rw [if_neg h1]
    exact ⟨rfl, rfl, fun p hp => hp, txt_not_mem_nil⟩

theorem txtStep_generated (force w : Bool) (slug : List Char)
    (fs : List (List Char)) (note : Note) :
    (toL "txt" ∈ (txtStep force w slug fs note).generated) ↔
      (w && (force || ! export_file_exists fs note.txt_path)) = true := by
  simp only [txtStep]
  by_cases h : (w && (force || ! export_file_exists fs note.txt_path)) = true
  · rw [if_pos h]
    simp [h]
  · rw [if_neg h]
    simp [h]

theorem ensure_note_exports_eq_body (env : ExportEnv) (fs : List (List Char))
    (note : Note) (pc : List Char) (ae : Option (List Char)) (force : Bool)
    (formats : Option (List (List Char)))
    (hpc : note.processed_content = some pc) (hne : ¬ pc = []) :
    ensure_note_exports env fs (some note) ae force formats =
      ensureBody env force (note_export_slug note)
        ((formats.getD [toL "pdf", toL "docx", toL "txt"]).contains (toL "pdf"))
        ((formats.getD [toL "pdf", toL "docx", toL "txt"]).contains (toL "docx"))
        ((formats.getD [toL "pdf", toL "docx", toL "txt"]).contains (toL "txt"))
        fs note := by
  simp only [ensure_note_exports, hpc]
  rw [if_neg hne]
  rfl

theorem ensureBody_txt_only_if (env : ExportEnv) (force : Bool) (slug : List Char)
    (wPdf wDocx wTxt : Bool) (fs : List (List Char)) (note : Note)
    (hmem : toL "txt" ∈ (ensureBody env force slug wPdf wDocx wTxt fs note).generated) :
    force = true ∨ export_file_exists fs note.txt_path = false := by
  obtain ⟨hp_txt, hp_pc, hp_fs, hp_gen⟩ := pdfStep_inv env force wPdf fs note
  simp only [ensureBody] at hmem
  by_cases hsvc : env.exportServiceAvailable = true
  · rw [if_pos hsvc] at hmem
    obtain ⟨hd_txt, hd_pc, hd_fs, hd_gen⟩ :=
      docxStep_inv env force wDocx slug (pdfStep env force wPdf fs note).fs
        (pdfStep env force wPdf fs note).note
    rcases List.mem_append.mp hmem with h12 | h3
    · rcases List.mem_append.mp h12 with h1 | h2
      · exact absurd h1 hp_gen
      · exact absurd h2 hd_gen
    · have hcond := (txtStep_generated force wTxt slug
        (docxStep env force wDocx slug (pdfStep env force wPdf fs note).fs
          (pdfStep env force wPdf fs note).note).fs
        (docxStep env force wDocx slug (pdfStep env force wPdf fs note).fs
          (pdfStep env force wPdf fs note).note).note).mp h3
      rw [Bool.and_eq_true] at hcond
      have hor := hcond.2
      rw [Bool.or_eq_true] at hor
      cases hor with
      | inl hf => exact Or.inl hf
      | inr hnx =>
        right
        by_contra hx
        rw [Bool.not_eq_false] at hx
        have hx1 : export_file_exists
            (pdfStep env force wPdf fs note).fs note.txt_path = true :=
          export_file_exists_mono fs _ _ hp_fs hx
        have hx2 : export_file_exists
            (docxStep env force wDocx slug (pdfStep env force wPdf fs note).fs
              (pdfStep env force wPdf fs note).note).fs note.txt_path = true :=
          export_file_exists_mono _ _ _ hd_fs hx1
        rw [hd_txt, hp_txt] at hnx
        rw [hx2] at hnx
        exact Bool.noConfusion hnx
  · rw [if_neg hsvc] at hmem
    exact absurd hmem hp_gen

theorem absolute_generate_txt (slug : List Char) :
    absolute_export_path (some (generate_txt_path slug)) =
      some (backendDir ++ '/' :: generate_txt_path slug) := by
  have h1 : generate_txt_path slug = 'g' :: (toL "enerated_pdfs/" ++ (slug ++ toL ".txt")) := rfl
  rw [h1]
  simp [absolute_export_path, isAbsPath, startsWithChar]

theorem absolute_of_backendDir (p : List Char) :
    absolute_export_path (some (backendDir ++ '/' :: p)) =
      some (backendDir ++ '/' :: p) := by
  have h1 : backendDir ++ '/' :: p = '/' :: (toL "app/backend" ++ '/' :: p) := rfl
  rw [h1]
  simp [absolute_export_path, isAbsPath, startsWithChar]

theorem export_file_exists_cons_self (fs : List (List Char)) (p : List Char) :
    export_file_exists ((backendDir ++ '/' :: p) :: fs)
      (some (backendDir ++ '/' :: p)) = true := by
  unfold export_file_exists
  rw [absolute_of_backendDir]
  exact contains_true_of_mem (List.mem_cons_self _ _)

theorem txtStep_fresh (force : Bool) (slug : List Char) (fs : List (List Char))
    (note : Note) (hfresh : export_file_exists fs note.txt_path = false) :
    txtStep force true slug fs note =
      ⟨[(toL "txt_url",
          build_generated_file_url (some (backendDir ++ '/' :: generate_txt_path slug)))],
       { note with txt_path := some (backendDir ++ '/' :: generate_txt_path slug) },
       (backendDir ++ '/' :: generate_txt_path slug) :: fs,
       [toL "txt"]⟩ := by
  simp only [txtStep, hfresh]
  rw [if_pos (by simp)]
  rw [absolute_generate_txt]

theorem txtStep_valid (force : Bool) (slug : List Char) (fs : List (List Char))
    (note : Note) (hforce : force = false)
    (hvalid : export_file_exists fs note.txt_path = true) :
    txtStep force true slug fs note = ⟨[], note, fs, []⟩ := by
  simp only [txtStep, hforce, hvalid]
  rw [if_neg (by simp)]

theorem ensure_exports_base (env : ExportEnv) (fs : List (List Char))
    (note? : Option Note) (ae : Option (List Char)) (force : Bool)
    (formats : Option (List (List Char)))
    (h : note? = none ∨ ∃ note, note? = some note ∧
        (note.processed_content = none ∨ note.processed_content = some [])) :
    ensure_note_exports env fs note? ae force formats = ⟨[], note?, fs, []⟩ := by
  rcases h with rfl | ⟨note, rfl, hc⟩
  · rfl
  · rcases hc with hc | hc
    · simp [ensure_note_exports, hc]
    · simp [ensure_note_exports, hc]

/-! ### Claim C6 and claim C9 -/

/-- Claim C6: with the export service importable, a note with non-empty
processed content and no valid txt artifact recorded, ensure-exports for the
txt format with force off generates the txt exactly once: the first call
generates it and records its absolute location on the note; the second call,
run on the state the first produced, generates nothing and leaves the note and
the filesystem exactly as they were; and in general a txt generation happens
in a call only when force is set or no file exists at the recorded txt
location. -/
theorem C6_txt_export_idempotent (env : ExportEnv) (fs : List (List Char))
    (note : Note) (pc : List Char)
    (hpc : note.processed_content = some pc) (hne : ¬ pc = [])
    (hsvc : env.exportServiceAvailable = true)
    (hfresh : export_file_exists fs note.txt_path = false) :
    (ensure_note_exports env fs (some note) none false (some [toL "txt"])).generated =
      [toL "txt"]
    ∧ (ensure_note_exports env fs (some note) none false (some [toL "txt"])).note =
        some { note with txt_path := some (backendDir ++ '/' ::
          generate_txt_path (note_export_slug note)) }
    ∧ (ensure_note_exports env
        (ensure_note_exports env fs (some note) none false (some [toL "txt"])).fs
        (ensure_note_exports env fs (some note) none false (some [toL "txt"])).note
        none false (some [toL "txt"])).generated = []
    ∧ (ensure_note_exports env
        (ensure_note_exports env fs (some note) none false (some [toL "txt"])).fs
        (ensure_note_exports env fs (some note) none false (some [toL "txt"])).note
        none false (some [toL "txt"])).note =
      (ensure_note_exports env fs (some note) none false (some [toL "txt"])).note
    ∧ (ensure_note_exports env
        (ensure_note_exports env fs (some note) none false (some [toL "txt"])).fs
        (ensure_note_exports env fs (some note) none false (some [toL "txt"])).note
        none false (some [toL "txt"])).fs =
      (ensure_note_exports env fs (some note) none false (some [toL "txt"])).fs
    ∧ (∀ (fs2 : List (List Char)) (n2 : Note) (force : Bool)
        (fmts : Option (List (List Char))),
        toL "txt" ∈ (ensure_note_exports env fs2 (some n2) none force fmts).generated →
        force = true ∨ export_file_exists fs2 n2.txt_path = false) := by
  have c1 : (((some [toL "txt"] : Option (List (List Char))).getD
      [toL "pdf", toL "docx", toL "txt"]).contains (toL "pdf")) = false := by decide
  have c2 : (((some [toL "txt"] : Option (List (List Char))).getD
      [toL "pdf", toL "docx", toL "txt"]).contains (toL "docx")) = false := by decide
  have c3 : (((some [toL "txt"] : Option (List (List Char))).getD
      [toL "pdf", toL "docx", toL "txt"]).contains (toL "txt")) = true := by decide
  have hp : pdfStep env false false fs note = ⟨[], note, fs, []⟩ := by
    simp [pdfStep]
  have hd : docxStep env false false (note_export_slug note) fs note =
      ⟨[], note, fs, []⟩ := by
    simp [docxStep]
  have he1 : ensure_note_exports env fs (some note) none false (some [toL "txt"]) =
      ⟨[(toL "txt_url",
          build_generated_file_url (some (backendDir ++ '/' ::
            generate_txt_path (note_export_slug note))))],
       some { note with txt_path := some (backendDir ++ '/' ::
          generate_txt_path (note_export_slug note)) },
       (backendDir ++ '/' :: generate_txt_path (note_export_slug note)) :: fs,
       [toL "txt"]⟩ := by
    rw [ensure_note_exports_eq_body env fs note pc none false (some [toL "txt"]) hpc hne,
      c1, c2, c3]
    simp only [ensureBody]
    rw [if_pos hsvc]
    rw [hp]
    simp only []
    rw [hd]
    simp only []
    rw [txtStep_fresh false (note_export_slug note) fs note hfresh]
    simp
  have hpc1 : ({ note with txt_path := some (backendDir ++ '/' ::
      generate_txt_path (note_export_slug note)) } :
      Note).processed_content = some pc := hpc
  have hv : export_file_exists
      ((backendDir ++ '/' :: generate_txt_path (note_export_slug note)) :: fs)
      ({ note with txt_path := some (backendDir ++ '/' ::
        generate_txt_path (note_export_slug note))} :
        Note).txt_path = true :=
    export_file_exists_cons_self fs (generate_txt_path (note_export_slug note))
  have hp1 : pdfStep env false false
      ((backendDir ++ '/' :: generate_txt_path (note_export_slug note)) :: fs)
      { note with txt_path := some (backendDir ++ '/' ::
        generate_txt_path (note_export_slug note)) } =
      ⟨[], { note with txt_path := some (backendDir ++ '/' ::
        generate_txt_path (note_export_slug note)) },
       (backendDir ++ '/' :: generate_txt_path (note_export_slug note)) :: fs, []⟩ := by
    simp [pdfStep]
  have hd1 : docxStep env false false (note_export_slug note)
      ((backendDir ++ '/' :: generate_txt_path (note_export_slug note)) :: fs)
      { note with txt_path := some (backendDir ++ '/' ::
        generate_txt_path (note_export_slug note)) } =
      ⟨[], { note with txt_path := some (backendDir ++ '/' ::
        generate_txt_path (note_export_slug note)) },
       (backendDir ++ '/' :: generate_txt_path (note_export_slug note)) :: fs, []⟩ := by
    simp [docxStep]
  have hslug : note_export_slug ({ note with txt_path := some (backendDir ++ '/' ::
      generate_txt_path (note_export_slug note)) } : Note) =
      note_export_slug note := rfl
  have ht1 := txtStep_valid false (note_export_slug note)
    ((backendDir ++ '/' :: generate_txt_path (note_export_slug note)) :: fs)
    { note with txt_path := some (backendDir ++ '/' ::
      generate_txt_path (note_export_slug note)) }
    rfl hv
  have he2 : ensure_note_exports env
      ((backendDir ++ '/' :: generate_txt_path (note_export_slug note)) :: fs)
      (some { note with txt_path := some (backendDir ++ '/' ::
        generate_txt_path (note_export_slug note)) })
      none false (some [toL "txt"]) =
      ⟨[], some { note with txt_path := some (backendDir ++ '/' ::
          generate_txt_path (note_export_slug note)) },
       (backendDir ++ '/' :: generate_txt_path (note_export_slug note)) :: fs, []⟩ := by
    rw [ensure_note_exports_eq_body env _ _ pc none false (some [toL "txt"]) hpc1 hne,
      c1, c2, c3]
    simp only [ensureBody]
    rw [if_pos hsvc]
    rw [hp1]
    simp only []
    rw [hslug, hd1]
    simp only []
    rw [ht1]
    simp
  refine ⟨?_, ?_, ?_, ?_, ?_, ?_⟩
  · rw [he1]
  · rw [he1]
  · rw [he1]
    simp only []
    rw [he2]
  · rw [he1]
    simp only []
    rw [he2]
  · rw [he1]
    simp only []
    rw [he2]
  · intro fs2 n2 force fmts hmem
    cases hpc2 : n2.processed_content with
    | none =>
      rw [ensure_exports_base env fs2 (some n2) none force fmts
        (Or.inr ⟨n2, rfl, Or.inl hpc2⟩)] at hmem
      exact absurd hmem txt_not_mem_nil
    | some pc2 =>
      by_cases hne2 : pc2 = []
      · subst hne2
        rw [ensure_exports_base env fs2 (some n2) none force fmts
          (Or.inr ⟨n2, rfl, Or.inr hpc2⟩)] at hmem
        exact absurd hmem txt_not_mem_nil
      · rw [ensure_note_exports_eq_body env fs2 n2 pc2 none force fmts hpc2 hne2] at hmem
        exact ensureBody_txt_only_if env force (note_export_slug n2) _ _ _ fs2 n2 hmem

/-- Witness for C6_txt_export_idempotent on a concrete completed note and an
empty filesystem. -/
theorem C6_witness :
    sampleNote.processed_content = some (toL "enhanced")
    ∧ ¬ toL "enhanced" = []
    ∧ sampleExportEnv.exportServiceAvailable = true
    ∧ export_file_exists [] sampleNote.txt_path = false
    ∧ ((ensure_note_exports sampleExportEnv [] (some sampleNote) none false
          (some [toL "txt"])).generated = [toL "txt"]
      ∧ (ensure_note_exports sampleExportEnv [] (some sampleNote) none false
          (some [toL "txt"])).note =
          some { sampleNote with txt_path := some (backendDir ++ '/' ::
            generate_txt_path (note_export_slug sampleNote)) }
      ∧ (ensure_note_exports sampleExportEnv
          (ensure_note_exports sampleExportEnv [] (some sampleNote) none false
            (some [toL "txt"])).fs
          (ensure_note_exports sampleExportEnv [] (some sampleNote) none false
            (some [toL "txt"])).note
          none false (some [toL "txt"])).generated = []
      ∧ (ensure_note_exports sampleExportEnv
          (ensure_note_exports sampleExportEnv [] (some sampleNote) none false
            (some [toL "txt"])).fs
          (ensure_note_exports sampleExportEnv [] (some sampleNote) none false
            (some [toL "txt"])).note
          none false (some [toL "txt"])).note =
        (ensure_note_exports sampleExportEnv [] (some sampleNote) none false
          (some [toL "txt"])).note
      ∧ (ensure_note_exports sampleExportEnv
          (ensure_note_exports sampleExportEnv [] (some sampleNote) none false
            (some [toL "txt"])).fs
          (ensure_note_exports sampleExportEnv [] (some sampleNote) none false
            (some [toL "txt"])).note
          none false (some [toL "txt"])).fs =
        (ensure_note_exports sampleExportEnv [] (some sampleNote) none false
          (some [toL "txt"])).fs
      ∧ (∀ (fs2 : List (List Char)) (n2 : Note) (force : Bool)
          (fmts : Option (List (List Char))),
          toL "txt" ∈ (ensure_note_exports sampleExportEnv fs2 (some n2) none force
            fmts).generated →
          force = true ∨ export_file_exists fs2 n2.txt_path = false)) :=
  ⟨rfl, by decide, rfl, rfl,
    C6_txt_export_idempotent sampleExportEnv [] sampleNote (toL "enhanced")
      rfl (by decide) rfl rfl⟩

/-- Claim C9: for a missing note, and for a note whose processed content is
absent or empty, the export-ensuring operation returns an empty exports map,
generates no artifact in any format and changes neither the note nor the
filesystem, whatever the force flag and the requested formats are. -/
theorem C9_no_content_no_exports (env : ExportEnv) (fs : List (List Char))
    (note? : Option Note) (ae : Option (List Char)) (force : Bool)
    (formats : Option (List (List Char)))
    (h : note? = none ∨ ∃ note, note? = some note ∧
        (note.processed_content = none ∨ note.processed_content = some [])) :
    ensure_note_exports env fs note? ae force formats = ⟨[], note?, fs, []⟩ :=
  ensure_exports_base env fs note? ae force formats h

/-- Witness for C9_no_content_no_exports: a note without processed content,
force set, pdf and txt requested. -/
theorem C9_witness :
    ((some { sampleNote with processed_content := none } : Option Note) = none ∨
      ∃ note, (some { sampleNote with processed_content := none } : Option Note) =
          some note ∧
        (note.processed_content = none ∨ note.processed_content = some []))
    ∧ ensure_note_exports sampleExportEnv []
        (some { sampleNote with processed_content := none })
        none true (some [toL "pdf", toL "txt"]) =
      ⟨[], some { sampleNote with processed_content := none }, [], []⟩ :=
  ⟨Or.inr ⟨{ sampleNote with processed_content := none }, rfl, Or.inl rfl⟩,
    C9_no_content_no_exports sampleExportEnv []
      (some { sampleNote with processed_content := none }) none true
      (some [toL "pdf", toL "txt"])
      (Or.inr ⟨{ sampleNote with processed_content := none }, rfl, Or.inl rfl⟩)⟩
